import Mathlib

/-!
# A shallow embedding of PNG-Utils-JS (`src/png_utils.js`)

This file embeds the three algorithmic components of the repository —
`parseChunks`, `reverseFiltering` and `subimage` — as executable Lean
functions, and settles the frozen claims about them.

The JavaScript source manipulates heterogeneous arrays (rows holding a
number followed by pixel arrays, values that may be `undefined` or `NaN`,
number-plus-array coercions), so scanline reconstruction is modelled over a
small JavaScript value type `JsVal`.  Machine arithmetic is exact: all the
numbers the source manipulates are small integers, and the source wraps
byte overflow itself with explicit `if (ret >= 256) ret -= 256` tests,
which are translated literally.  Loops are translated as fuel-indexed
structural recursions; the fuel passed by the wrappers (`buffer length + 1`)
always suffices because each loop strictly advances its position, so the
out-of-fuel branches are unreachable.
-/

/-- JavaScript runtime values that occur while the source runs: integers
(`num`), `NaN`, `undefined`, strings, and arrays.  The source never
produces fractional numbers: every division is immediately truncated by
`~~`, which is modelled as a single operation. -/
inductive JsVal where
  | num (n : Int)
  | nan
  | undefined
  | str (s : String)
  | arr (elems : List JsVal)

/-- Element conversion used by `Array.prototype.join` (hence by
`String(array)`): `undefined` renders as the empty string, numbers by their
decimal notation, `NaN` as `"NaN"`.  Pixel arrays built by the source only
ever hold numbers and `NaN` (they are slices of the byte buffer, or images
of such slices under the per-byte maps), so nested arrays cannot occur
inside an array that gets stringified; the `arr` branch is unreachable. -/
def jsJoinElem : JsVal → String
  | .num n => toString n
  | .nan => "NaN"
  | .undefined => ""
  | .str s => s
  | .arr _ => ""

/-- `String(array)`: elements joined with commas. -/
def jsArrToStr (l : List JsVal) : String :=
  String.intercalate "," (l.map jsJoinElem)

/-- JavaScript `ToString` of a value in string-concatenation position. -/
def jsStrOf : JsVal → String
  | .num n => toString n
  | .nan => "NaN"
  | .undefined => "undefined"
  | .str s => s
  | .arr l => jsArrToStr l

/-- JavaScript `ToNumber`, yielding `num` or `nan`.  The empty string
converts to `0`; other strings convert by integer parsing (the strings the
source can build are joins of integers and `"NaN"`, for which
`String.toInt?` agrees with JavaScript `Number`); arrays convert through
their string. -/
def jsToNum : JsVal → JsVal
  | .num n => .num n
  | .nan => .nan
  | .undefined => .nan
  | .str s =>
    if s = "" then .num 0 else
      match s.toInt? with
      | some n => .num n
      | none => .nan
  | .arr l =>
    let s := jsArrToStr l
    if s = "" then .num 0 else
      match s.toInt? with
      | some n => .num n
      | none => .nan

/-- JavaScript `+`: string concatenation when either operand is a string
(arrays convert to their string first), numeric addition otherwise, with
`NaN`/`undefined` contaminating the sum. -/
def jsAdd (a b : JsVal) : JsVal :=
  match a, b with
  | .arr la, _ => .str (jsArrToStr la ++ jsStrOf b)
  | _, .arr lb => .str (jsStrOf a ++ jsArrToStr lb)
  | .str sa, _ => .str (sa ++ jsStrOf b)
  | _, .str sb => .str (jsStrOf a ++ sb)
  | _, _ =>
    match jsToNum a, jsToNum b with
    | .num x, .num y => .num (x + y)
    | _, _ => .nan

/-- JavaScript `-` (always numeric). -/
def jsSub (a b : JsVal) : JsVal :=
  match jsToNum a, jsToNum b with
  | .num x, .num y => .num (x - y)
  | _, _ => .nan

/-- JavaScript `Math.abs` on the values reached here. -/
def jsAbs (v : JsVal) : JsVal :=
  match jsToNum v with
  | .num n => .num (n.natAbs : Int)
  | _ => .nan

/-- JavaScript `v >= k` for a numeric literal `k`: `false` whenever the
left operand is not a number (`NaN` comparisons are false). -/
def jsGeInt (v : JsVal) (k : Int) : Bool :=
  match jsToNum v with
  | .num x => decide (x ≥ k)
  | _ => false

/-- JavaScript `a <= b` on (possibly `NaN`) numbers. -/
def jsLeVal (a b : JsVal) : Bool :=
  match jsToNum a, jsToNum b with
  | .num x, .num y => decide (x ≤ y)
  | _, _ => false

/-- The source's `~~(v / 2)`: numeric conversion, halving, truncation
toward zero; `~~` of `NaN` is `0`. -/
def jsTruncHalf (v : JsVal) : JsVal :=
  match jsToNum v with
  | .num n => .num (n.tdiv 2)
  | _ => .num 0

/-- The overflow correction the source applies after every byte addition:
`if (ret >= 256) { ret -= 256 }`. -/
def wrap256 (v : JsVal) : JsVal :=
  if jsGeInt v 256 then jsSub v (.num 256) else v

/-- Errors that abort `reverseFiltering`: a JavaScript `TypeError`
(indexing into `undefined`, or `reduce` on a value that does not support
it), the source's own `throw new Error("Unexpected filter byte.")`, and
the fuel sentinel (unreachable, see `rfLoop`). -/
inductive RFErr where
  | typeError
  | unexpectedFilterByte
  | outOfFuel
deriving DecidableEq

/-- JavaScript property access `v[k]` in element position: arrays yield
the element or `undefined` out of range, `undefined[k]` throws a
`TypeError`, numbers yield `undefined`, strings yield a one-character
string in range. -/
def jsGetElem (v : JsVal) (k : Nat) : Except RFErr JsVal :=
  match v with
  | .arr l => .ok (l.getD k .undefined)
  | .undefined => .error .typeError
  | .str s =>
    .ok (match s.toList.get? k with
         | some ch => .str (String.mk [ch])
         | none => .undefined)
  | _ => .ok .undefined

/-- `array.reduce((acc, curr) => acc + curr)` with no initial value:
`TypeError` on an empty array or on a non-array receiver. -/
def jsReduceSum : JsVal → Except RFErr JsVal
  | .arr [] => .error .typeError
  | .arr (h :: t) => .ok (t.foldl jsAdd h)
  | _ => .error .typeError

/-- Reading `row[k]` where `row` is a JavaScript array of values: the
element, or `undefined` past the end. -/
def rowGet (r : List JsVal) (k : Nat) : JsVal :=
  r.getD k .undefined

/-- Reading `res[k]` where `res` is the array of rows.  In
`reverseFiltering` the index is always in range when a row is read (rows
`0..lineNum` exist whenever the switch body runs), so the default is never
produced. -/
def rowAt (res : List (List JsVal)) (k : Nat) : List JsVal :=
  res.getD k []

/-- The assignment `res[k] = row`.  In `reverseFiltering`, `k` never
exceeds `res.length` (`lineNum` grows by exactly one per scanline), so
JavaScript hole semantics cannot arise and an out-of-range write is an
append. -/
def setRow (res : List (List JsVal)) (k : Nat) (row : List JsVal) :
    List (List JsVal) :=
  if k < res.length then res.set k row else res ++ [row]

/-- `arrayBuffer.slice(s, e)` on the byte buffer, as an array of JavaScript
numbers (clamped at the ends like the JavaScript method). -/
def jsSlice (buf : List Nat) (s e : Nat) : List JsVal :=
  ((buf.drop s).take (e - s)).map (fun b => .num (b : Int))

/-- The monadic indexed map used to translate
`curPixel.map((x) => { ... c++ ... })` bodies, which can throw. -/
def mapIdxMGo (f : Nat → JsVal → Except RFErr JsVal) :
    Nat → List JsVal → Except RFErr (List JsVal)
  | _, [] => .ok []
  | c, x :: xs => do
    let y ← f c x
    let ys ← mapIdxMGo f (c + 1) xs
    .ok (y :: ys)

/-- Indexed monadic map starting at index `0`. -/
def mapIdxM (f : Nat → JsVal → Except RFErr JsVal) (l : List JsVal) :
    Except RFErr (List JsVal) :=
  mapIdxMGo f 0 l

/-- The mutable locals of `reverseFiltering`'s loop.  `lineNum` is an
integer because the source initialises it to `-1`. -/
structure RFSt where
  res : List (List JsVal)
  tempArr : JsVal
  filterByte : Nat
  pixelCount : Nat
  lineNum : Int

/-- The `switch (filterByte)` body of `reverseFiltering`, translated case
by case from the source.  `i` is the (already advanced) byte position and
`curPixel` the current 4-byte slice.  Each case returns the updated locals
or the thrown error. -/
def rfSwitch (wB : Nat) (i : Nat) (st : RFSt) (curPixel : List JsVal) :
    Except RFErr RFSt :=
  let l := st.lineNum.toNat
  let row := rowAt st.res l
  match st.filterByte with
  | 0 =>
    -- case 0 (None): res[lineNum].push(curPixel)
    .ok { st with res := setRow st.res l (row ++ [.arr curPixel]) }
  | 1 =>
    -- case 1 (Sub)
    if (i : Int) > (wB : Int) * st.lineNum + 3 then
      match mapIdxM (fun c x => do
          let t ← jsGetElem st.tempArr c
          .ok (wrap256 (jsAdd x t))) curPixel with
      | .error e => .error e
      | .ok newPix =>
        let res1 := setRow st.res l (row ++ [.arr newPix])
        .ok { st with
                res := res1
                tempArr := rowGet (rowAt res1 l) (st.pixelCount + 1) }
    else
      .ok { st with
              tempArr := .arr curPixel
              res := setRow st.res l (row ++ [.arr curPixel]) }
  | 2 =>
    -- case 2 (Up)
    if st.lineNum > 0 then
      match mapIdxM (fun c x => do
          let b ← jsGetElem (rowGet (rowAt st.res (l - 1)) (st.pixelCount + 1)) c
          .ok (wrap256 (jsAdd x b))) curPixel with
      | .error e => .error e
      | .ok newPix =>
        .ok { st with res := setRow st.res l (row ++ [.arr newPix]) }
    else
      .ok { st with
              tempArr := .arr curPixel
              res := setRow st.res l (row ++ [.arr curPixel]) }
  | 3 =>
    -- case 3 (average)
    if st.lineNum > 0 ∧ (i : Int) > (wB : Int) * st.lineNum + 3 then
      match mapIdxM (fun c x => do
          let av ← jsGetElem (rowGet row (st.pixelCount + 1)) c
          let bv ← jsGetElem (rowGet (rowAt st.res (l - 1)) (st.pixelCount + 1)) c
          .ok (wrap256 (jsAdd x (jsTruncHalf (jsAdd av bv))))) curPixel with
      | .error e => .error e
      | .ok newPix =>
        .ok { st with res := setRow st.res l (row ++ [.arr newPix]) }
    else
      -- the boundary branch: `tmp = [0,0,0,0]`, one computed push, then a
      -- second push of the raw slice (`res[lineNum].push(curPixel)`).
      -- `tmp[c]` is always the number 0 since `c < 4`.
      let computed : Except RFErr (List JsVal) :=
        if ¬ st.lineNum > 0 then
          mapIdxM (fun c x => do
            let av ← jsGetElem (rowGet row (st.pixelCount + 1)) c
            .ok (wrap256 (jsAdd x (jsTruncHalf (jsAdd av (.num 0)))))) curPixel
        else if ¬ (i : Int) > (wB : Int) * st.lineNum + 3 then
          -- note the source forgets `[c]` on the row above, so a number is
          -- added to a whole pixel array (string coercion, then NaN).
          mapIdxM (fun _ x =>
            .ok (wrap256 (jsAdd x (jsTruncHalf
              (jsAdd (.num 0) (rowGet (rowAt st.res (l - 1)) (st.pixelCount + 1)))))))
            curPixel
        else
          mapIdxM (fun _ x =>
            .ok (wrap256 (jsAdd x (jsTruncHalf (jsAdd (.num 0) (.num 0))))))
            curPixel
      match computed with
      | .error e => .error e
      | .ok newPix =>
        let res1 := setRow st.res l (row ++ [.arr newPix])
        let res2 := setRow res1 l (rowAt res1 l ++ [.arr curPixel])
        .ok { st with tempArr := .arr curPixel, res := res2 }
  | 4 =>
    -- case 4 (Paeth): the source sums all four channels of each
    -- neighbouring pixel before comparing distances.
    let zeros : JsVal := .arr [.num 0, .num 0, .num 0, .num 0]
    let abc : JsVal × JsVal × JsVal :=
      if st.lineNum > 0 ∧ st.pixelCount ≠ 0 then
        (rowGet row st.pixelCount,
         rowGet (rowAt st.res (l - 1)) (st.pixelCount + 1),
         rowGet (rowAt st.res (l - 1)) st.pixelCount)
      else if st.pixelCount = 0 ∧ st.lineNum > 0 then
        (zeros, rowGet (rowAt st.res (l - 1)) (st.pixelCount + 1), zeros)
      else if st.pixelCount ≠ 0 ∧ ¬ st.lineNum > 0 then
        (rowGet row st.pixelCount, zeros, zeros)
      else
        (zeros, zeros, zeros)
    match jsReduceSum abc.1 with
    | .error e => .error e
    | .ok sa =>
      match jsReduceSum abc.2.1 with
      | .error e => .error e
      | .ok sb =>
        match jsReduceSum abc.2.2 with
        | .error e => .error e
        | .ok sc =>
          let p := jsSub (jsAdd sa sb) sc
          let pa := jsAbs (jsSub p sa)
          let pb := jsAbs (jsSub p sb)
          let pc := jsAbs (jsSub p sc)
          let src :=
            if jsLeVal pa pb && jsLeVal pa pc then abc.1
            else if jsLeVal pb pc then abc.2.1
            else abc.2.2
          match ([0, 1, 2, 3] : List Nat).mapM (fun j => do
              let sv ← jsGetElem src j
              .ok (wrap256 (jsAdd sv (curPixel.getD j .undefined)))) with
          | .error e => .error e
          | .ok ret =>
            .ok { st with res := setRow st.res l (row ++ [.arr ret]) }
  | _ => .error .unexpectedFilterByte

/-- The `for (let i = 0; i < arrayBuffer.length; i += 4)` loop of
`reverseFiltering`, with the in-body `i++` at scanline starts.  The fuel
decreases by one per iteration while `i` advances by at least 4, so
`buf.length + 1` fuel always reaches the `i < buf.length` exit and the
`outOfFuel` branch is unreachable. -/
def rfLoop (buf : List Nat) (wB : Nat) :
    Nat → Nat → RFSt → Except RFErr (List (List JsVal))
  | 0, _, _ => .error .outOfFuel
  | g + 1, i, st =>
    if i < buf.length then
      -- `if (i % widthBytes === 0 || i === 0)`
      let p : Nat × RFSt :=
        if i % wB = 0 ∨ i = 0 then
          (i + 1,
           { st with
               tempArr := .arr (jsSlice buf i (i + 4))
               filterByte := buf.getD i 0
               pixelCount := 0
               lineNum := st.lineNum + 1 })
        else (i, st)
      let i := p.1
      let st := p.2
      let l := st.lineNum.toNat
      -- `if (res[lineNum] === undefined || res[lineNum].length === 0)`
      let st :=
        match st.res.get? l with
        | none =>
          { st with
              res := setRow st.res l [.num (st.filterByte : Int)]
              tempArr := .arr (jsSlice buf i (i + 4)) }
        | some r =>
          if r.length = 0 then
            { st with
                res := setRow st.res l [.num (st.filterByte : Int)]
                tempArr := .arr (jsSlice buf i (i + 4)) }
          else st
      let curPixel := jsSlice buf i (i + 4)
      match rfSwitch wB i st curPixel with
      | .error e => .error e
      | .ok st1 => rfLoop buf wB g (i + 4) { st1 with pixelCount := st1.pixelCount + 1 }
    else .ok st.res

/-- The IHDR-derived record the source stores on the header chunk. -/
structure ChunkInfo where
  widthPixels : Nat
  heightPixels : Nat
deriving DecidableEq

/-- A chunk record as built by `parseChunks`: the decoded 4-byte type code
(kept as its bytes; UTF-8 decoding is injective on them), the data length,
the payload, the data offset, the CRC, and the width/height record that
only IHDR chunks carry. -/
structure Chunk where
  fourCC : List Nat
  size : Nat
  data : List Nat
  offset : Nat
  crc : Nat
  chunkInfo : Option ChunkInfo
deriving DecidableEq

/-- The lookup `this.data[0].chunkInfo` performed by `reverseFiltering`:
`none` when there is no first chunk or the first chunk has no header
record (in JavaScript the subsequent destructuring then throws). -/
def headChunkInfo (data : List Chunk) : Option ChunkInfo :=
  data.head?.bind (·.chunkInfo)

/-- `reverseFiltering(arrayBuffer)` of the source: reads the image width
from the object state (`this.data[0].chunkInfo`), then runs the
reconstruction loop.  A missing first chunk or missing `chunkInfo` makes
the destructuring throw a `TypeError`.  The initial row array is `[[]]`,
`lineNum` starts at `-1`, and `tempArr`/`filterByte` start uninitialised
(the first iteration always assigns them before use; `filterByte` is
modelled by the unused value 0). -/
def reverseFiltering (data : List Chunk) (arrayBuffer : List Nat) :
    Except RFErr (List (List JsVal)) :=
  match headChunkInfo data with
  | none => .error .typeError
  | some ci =>
    let wB := ci.widthPixels * 4 + 1
    rfLoop arrayBuffer wB (arrayBuffer.length + 1) 0
      { res := [[]], tempArr := .undefined, filterByte := 0, pixelCount := 0, lineNum := -1 }

/-- Errors raised by `parseChunks`: the only failure mode is a
`DataView.getUint32` read past the end of the buffer (`RangeError`). -/
inductive ParseErr where
  | rangeError
deriving DecidableEq

/-- `dataView.getUint32(pos)` (big-endian): the 32-bit value assembled
from the four bytes at `pos`, or a `RangeError` (`none`) when fewer than
four bytes remain. -/
def getUint32 (bytes : List Nat) (pos : Nat) : Option Nat :=
  match bytes.get? pos, bytes.get? (pos + 1), bytes.get? (pos + 2), bytes.get? (pos + 3) with
  | some b0, some b1, some b2, some b3 =>
    some (b0 * 16777216 + b1 * 65536 + b2 * 256 + b3)
  | _, _, _, _ => none

/-- The bytes whose UTF-8 decoding is the string `"IHDR"`; the comparison
`fourCC === "IHDR"` holds exactly when the type-code bytes are these. -/
def ihdrCode : List Nat := [73, 72, 68, 82]

/-- Byte code of `"IDAT"`. -/
def idatCode : List Nat := [73, 68, 65, 84]

/-- Byte code of `"IEND"`. -/
def iendCode : List Nat := [73, 69, 78, 68]

/-- The `while (pos < arrayBuffer.byteLength)` loop of `parseChunks`.
Each pass reads the length, the type code, the payload slice and the CRC,
and advances `pos` past the CRC; IHDR chunks additionally read the
width/height words at absolute offsets 16 and 20.  Fuel decreases by one
per chunk while `pos` advances by at least 12, so `bytes.length + 1` fuel
always suffices and the zero-fuel branch is unreachable. -/
def parseLoop (bytes : List Nat) :
    Nat → Nat → Except ParseErr (List Chunk)
  | 0, _ => .error .rangeError
  | g + 1, pos =>
    if pos < bytes.length then
      match getUint32 bytes pos with
      | none => .error .rangeError
      | some size =>
        let fourCC := (bytes.drop (pos + 4)).take 4
        let offset := pos + 8
        let pos2 := offset + size
        match getUint32 bytes pos2 with
        | none => .error .rangeError
        | some crc =>
          let body := (bytes.drop offset).take size
          let info : Except ParseErr (Option ChunkInfo) :=
            if fourCC = ihdrCode then
              match getUint32 bytes 16, getUint32 bytes 20 with
              | some w, some h => .ok (some ⟨w, h⟩)
              | _, _ => .error .rangeError
            else .ok none
          match info with
          | .error e => .error e
          | .ok ci =>
            match parseLoop bytes g (pos2 + 4) with
            | .error e => .error e
            | .ok rest =>
              .ok ({ fourCC := fourCC, size := size, data := body,
                     offset := offset, crc := crc, chunkInfo := ci } :: rest)
    else .ok []

/-- `parseChunks(arrayBuffer)` of the source: skip the 8-byte signature
and walk the chunk sequence. -/
def parseChunks (bytes : List Nat) : Except ParseErr (List Chunk) :=
  parseLoop bytes (bytes.length + 1) 8

/-- The `tileSize` argument of `subimage`: a JavaScript object whose `x`
and `y` properties may be absent (`none` plays `undefined`). -/
structure TileSizeJs where
  x : Option Int
  y : Option Int

/-- The `margins` argument of `subimage`.  The validation reads `x` and
`y`, while the body destructures `xMargin` and `yMargin`; all four are
modelled, absent properties as `none`. -/
structure MarginsJs where
  x : Option Int
  y : Option Int
  xMargin : Option Int
  yMargin : Option Int

/-- The `options` argument of `subimage`; `ignoredColour` may be absent. -/
structure OptionsJs where
  ignoredColour : Option (List Int)

/-- The source's default `margins = { xMargin: 0, yMargin: 0 }`: the `x`
and `y` properties are absent. -/
def defaultMargins : MarginsJs :=
  { x := none, y := none, xMargin := some 0, yMargin := some 0 }

/-- The source's default `options = { ignoredColour: [0, 0, 0, 0] }`. -/
def defaultOptions : OptionsJs :=
  { ignoredColour := some [0, 0, 0, 0] }

/-- Failure modes of `subimage`: the four validation errors, the
`TypeError` thrown by `imageDataBuffer[0].length` on an empty grid
(outside the `try` block), and the exception wrapped by the `catch`
(`"Error trying to get subimage."`). -/
inductive SubErr where
  | invalidTileSize
  | invalidMargins
  | invalidSeparation
  | invalidOptions
  | typeError
  | subimageError
deriving DecidableEq

/-- A tile as built by `subimage`: an array of row slices. -/
abbrev Tile := List (List JsVal)

/-- `imageDataBuffer[i]` for the (possibly negative) loop index `i`:
`undefined` (here `none`) out of range. -/
def gridRow (grid : List (List JsVal)) (i : Int) : Option (List JsVal) :=
  if i < 0 then none else grid.get? i.toNat

/-- JavaScript `slice` index conversion: `undefined`/`NaN` converts to
`0`, negative indices count from the end, and everything clamps to the
array bounds. -/
def jsSliceIdx (len : Nat) : Option Int → Nat
  | none => 0
  | some v => if v < 0 then ((len : Int) + v).toNat else min v.toNat len

/-- `row.slice(xOffset, xOffset + tileWidth)` where `xOffset` may be
`undefined` (then both bounds convert to 0 and the slice is empty). -/
def jsSliceRange (row : List JsVal) (s : Option Int) (tw : Int) : List JsVal :=
  let st := jsSliceIdx row.length s
  let en := jsSliceIdx row.length (s.map (· + tw))
  (row.drop st).take (en - st)

/-- `Option` addition for the JavaScript offsets: adding to
`undefined`/`NaN` stays non-numeric. -/
def optAdd (o : Option Int) (k : Int) : Option Int :=
  o.map (· + k)

/-- The innermost loop of `subimage`
(`for (let i = yOffset; i < yOffset + tileHeight; i++)`), collecting the
row slices of one tile; an out-of-range `imageDataBuffer[i]` makes
`.slice` throw, which the `catch` rethrows (`subimageError`). -/
def tileLoop (grid : List (List JsVal)) (xOff : Option Int) (tw : Int) :
    Int → Nat → Except SubErr (List (List JsVal))
  | _, 0 => .ok []
  | i, n + 1 =>
    match gridRow grid i with
    | none => .error .subimageError
    | some row => do
      let rest ← tileLoop grid xOff tw (i + 1) n
      .ok (jsSliceRange row xOff tw :: rest)

/-- The column loop of `subimage`: one tile per column, `xOffset`
advancing by `tileWidth + separation`.  When `yOffset` is `undefined` the
inner loop's bound is `NaN` and the tile stays empty. -/
def colLoop (grid : List (List JsVal)) (yOff : Option Int) (tw th : Int)
    (twSep : Int) : Option Int → Nat → Except SubErr (List Tile)
  | _, 0 => .ok []
  | xOff, n + 1 => do
    let tile ←
      match yOff with
      | none => pure ([] : List (List JsVal))
      | some y => tileLoop grid xOff tw y th.toNat
    let rest ← colLoop grid yOff tw th twSep (optAdd xOff twSep) n
    .ok (tile :: rest)

/-- The row loop of `subimage`: after each row of tiles, `xOffset` resets
to `xMargin` and `yOffset` advances by `tileHeight + separation`. -/
def rowLoop (grid : List (List JsVal)) (xMargin : Option Int)
    (tw th twSep thSep : Int) (colCnt : Nat) :
    Option Int → Nat → Except SubErr (List Tile)
  | _, 0 => .ok []
  | yOff, n + 1 => do
    let tiles ← colLoop grid yOff tw th twSep xMargin colCnt
    let rest ← rowLoop grid xMargin tw th twSep thSep colCnt (optAdd yOff thSep) n
    .ok (tiles ++ rest)

/-- The number of loop passes of `for (row = 0; row < numRows; row++)`:
none when the bound is `NaN` (`none`), otherwise the bound clamped at 0. -/
def loopCount : Option Int → Nat
  | none => 0
  | some v => v.toNat

/-- The body of `subimage` up to and including the loops, exposing the
local `tileset` that the source builds (and then never returns).  The
validations are translated in source order; `Array.isArray(imageDataBuffer)`
holds by the type of the embedding.  After validation the body destructures
`margins` into `xMargin`/`yMargin` — property names that the validation
did not check — so both offsets may be `undefined`. -/
def subimageRun (grid : List (List JsVal)) (tileSize : TileSizeJs)
    (margins : MarginsJs) (separation : Int) (options : OptionsJs) :
    Except SubErr (List Tile) :=
  match tileSize.x, tileSize.y with
  | some tw, some th =>
    if tw ≤ 0 ∨ th ≤ 0 then .error .invalidTileSize
    else
      match margins.x, margins.y with
      | some _, some _ =>
        if separation < 0 then .error .invalidSeparation
        else
          match options.ignoredColour with
          | none => .error .invalidOptions
          | some ic =>
            if ic.length ≠ 4 then .error .invalidOptions
            else
              let xM := margins.xMargin
              let yM := margins.yMargin
              let thSep := th + separation
              let twSep := tw + separation
              let numRows : Option Int :=
                if thSep > 0 then
                  yM.map (fun ym => ((grid.length : Int) - ym).fdiv thSep)
                else some 0
              match grid.head? with
              | none => .error .typeError
              | some g0 =>
                let numCols : Option Int :=
                  if twSep > 0 then
                    xM.map (fun xm => ((g0.length : Int) - xm).fdiv twSep)
                  else some 0
                rowLoop grid xM tw th twSep thSep (loopCount numCols) yM
                  (loopCount numRows)
      | _, _ => .error .invalidMargins
  | _, _ => .error .invalidTileSize

/-- `subimage` as callable: the source function has no `return`
statement, so a call that does not throw evaluates to `undefined`
(modelled as `Unit`); the tile list built internally is discarded. -/
def subimage (grid : List (List JsVal)) (tileSize : TileSizeJs)
    (margins : MarginsJs) (separation : Int) (options : OptionsJs) :
    Except SubErr Unit :=
  (subimageRun grid tileSize margins separation options).map (fun _ => ())

/-- Splitting a scanline's pixel bytes into consecutive 4-byte pixels
(the final group may be shorter, as a JavaScript slice would be). -/
def chunk4 : List Nat → List (List Nat)
  | [] => []
  | [a] => [[a]]
  | [a, b] => [[a, b]]
  | [a, b, c] => [[a, b, c]]
  | a :: b :: c :: d :: rest => [a, b, c, d] :: chunk4 rest

/-- The pixel entries that a fully reconstructed filter-0 scanline of raw
bytes `s` contributes to its row. -/
def pixRow (s : List Nat) : List JsVal :=
  (chunk4 s).map (fun q => .arr (q.map (fun b => .num (b : Int))))

/-- A scanline with filter-type byte 0 in front of its pixel bytes. -/
def scanline0 (s : List Nat) : List Nat := 0 :: s

/-- The filtered stream whose scanlines are the given pixel-byte lists,
each with filter-type byte 0. -/
def flat0 (lines : List (List Nat)) : List Nat :=
  (lines.map scanline0).flatten

/-- Big-endian 4-byte encoding of a 32-bit value. -/
def be32 (n : Nat) : List Nat :=
  [n / 16777216 % 256, n / 65536 % 256, n / 256 % 256, n % 256]

/-- A parsed IHDR chunk holding the given image dimensions, as it would
sit in `this.data` after initialisation. -/
def ihdrChunk (w h : Nat) : Chunk :=
  { fourCC := ihdrCode, size := 13, data := [], offset := 16, crc := 0,
    chunkInfo := some ⟨w, h⟩ }

/-- A parsed non-IHDR chunk (no `chunkInfo`). -/
def plainChunk : Chunk :=
  { fourCC := idatCode, size := 0, data := [], offset := 8, crc := 0,
    chunkInfo := none }

/-- The per-channel Paeth reconstruction that the specification (and the
PNG standard) prescribe, stated from the claim's own words purely for
comparison with the source's summed-channel variant: predictor
`p = a + b - c`, distances `pa, pb, pc`, neighbour selection, and the
byte sum modulo 256. -/
def paethSpecRecon (x a b c : Int) : Int :=
  let p := a + b - c
  let pa := |p - a|
  let pb := |p - b|
  let pc := |p - c|
  let chosen := if pa ≤ pb ∧ pa ≤ pc then a else if pb ≤ pc then b else c
  (x + chosen) % 256

/-- C1.  The claim says `extractTiles` returns a row-major list of
`numRows * numCols` tiles, and that a 130×130 grid with 64×64 tiles, zero
margins and zero separation yields 4 tiles.  The source's `subimage` has
no `return` statement, so every successful call yields `undefined` and no
caller can obtain any tiles; moreover with margins `{x:0, y:0}` (the only
spelling its validation accepts) the body destructures the absent
`xMargin`/`yMargin` properties, the row/column bounds become `NaN`, and
even the internal tile list stays empty. -/
theorem c1_tile_extraction_returns_undefined :
    subimage (List.replicate 130 (List.replicate 130
        (JsVal.arr [.num 0, .num 0, .num 0, .num 0])))
      ⟨some 64, some 64⟩ ⟨some 0, some 0, none, none⟩ 0 defaultOptions = .ok () ∧
    subimageRun (List.replicate 130 (List.replicate 130
        (JsVal.arr [.num 0, .num 0, .num 0, .num 0])))
      ⟨some 64, some 64⟩ ⟨some 0, some 0, none, none⟩ 0 defaultOptions = .ok [] :=
  ⟨rfl, rfl⟩

/-- C2.  The claim says Paeth reconstruction is per channel.  On the
stream below (width 2: a filter-0 row `(0,0,0,0) (0,20,0,0)` above a
filter-4 row) the source sums the channels of each neighbour before
comparing distances and picks the whole `b` pixel, reconstructing channel
0 of the second pixel as `7`; the per-channel rule of the claim picks
`a = 10` for that channel and yields `17`. -/
theorem c2_paeth_sums_channels :
    reverseFiltering [ihdrChunk 2 2]
        [0, 0, 0, 0, 0, 0, 20, 0, 0, 4, 10, 0, 0, 0, 7, 3, 0, 0] =
      .ok [[.num 0, .arr [.num 0, .num 0, .num 0, .num 0],
              .arr [.num 0, .num 20, .num 0, .num 0]],
           [.num 4, .arr [.num 10, .num 0, .num 0, .num 0],
              .arr [.num 7, .num 23, .num 0, .num 0]]] ∧
    paethSpecRecon 7 10 0 0 = 17 ∧ (7 : Int) ≠ 17 :=
  ⟨rfl, by decide, by decide⟩

/-- C3.  The claim (and the source's own doc comment) say a pixel equal
to `ignoredColour` is replaced by `(0,0,0,0)` in the extracted tile.  The
source validates `ignoredColour` and then never uses it: the pixel below
equals the ignored colour `[1,2,3,4]` and is copied into the internal
tile unchanged — and the function returns `undefined` besides. -/
theorem c3_ignored_colour_not_masked :
    subimageRun [[JsVal.arr [.num 1, .num 2, .num 3, .num 4]]]
      ⟨some 1, some 1⟩ ⟨some 0, some 0, some 0, some 0⟩ 0 ⟨some [1, 2, 3, 4]⟩ =
      .ok [[[JsVal.arr [.num 1, .num 2, .num 3, .num 4]]]] ∧
    subimage [[JsVal.arr [.num 1, .num 2, .num 3, .num 4]]]
      ⟨some 1, some 1⟩ ⟨some 0, some 0, some 0, some 0⟩ 0 ⟨some [1, 2, 3, 4]⟩ =
      .ok () ∧
    JsVal.arr [.num 1, .num 2, .num 3, .num 4] ≠
      JsVal.arr [.num 0, .num 0, .num 0, .num 0] :=
  ⟨rfl, rfl, by simp⟩

/-- C4.  The claim says omitting `margins` behaves like `{x:0, y:0}` and
passes validation.  The source's own default value
`{ xMargin: 0, yMargin: 0 }` has no `x`/`y` properties, so the margins
validation (`typeof margins.x !== 'number' || ...`) throws on every call
that omits the argument. -/
theorem c4_default_margins_rejected :
    subimage [[JsVal.arr [.num 0, .num 0, .num 0, .num 0]]]
      ⟨some 1, some 1⟩ defaultMargins 0 defaultOptions = .error .invalidMargins :=
  rfl

/-- C5.  The claim gives the Average-filter reconstruction, with the
first row behaving as if the row above were zero.  On a first-row
Average scanline the source evaluates
`res[lineNum][pixelCount + 1][c]` while the row holds only the filter
byte, indexing into `undefined`: the call throws a `TypeError` instead of
returning `x + floor((0+0)/2) = x`. -/
theorem c5_average_first_row_type_error :
    reverseFiltering [ihdrChunk 1 1] [3, 10, 20, 30, 40] = .error .typeError :=
  rfl

/-- C6 counterexample.  The claim says reconstruction of a filter-0
stream strips the filter-type bytes and every output row has length equal
to the width.  The source stores the filter byte as element 0 of each row
(its own comment: "The first element of the inner array is the filter
method integer"), so a width-1 stream yields a row of length 2, not the
claimed `[[pixel]]`. -/
theorem c6_counterexample_filter_byte_kept :
    reverseFiltering [ihdrChunk 1 1] [0, 10, 20, 30, 40] =
      .ok [[.num 0, .arr [.num 10, .num 20, .num 30, .num 40]]] ∧
    [[JsVal.num 0, .arr [.num 10, .num 20, .num 30, .num 40]]] ≠
      [[JsVal.arr [.num 10, .num 20, .num 30, .num 40]]] :=
  ⟨rfl, by simp⟩

/-- C7 counterexample.  The claim says a filtered buffer shorter than
`height * (1 + width*4)` bytes makes reconstruction fail with a
truncated-stream error.  For width 1 and height 2 the 5-byte buffer below
is half the required 10 bytes, yet the source (which never reads the
height and performs no length check) silently returns a one-row grid. -/
theorem c7_counterexample_truncated_ok :
    reverseFiltering [ihdrChunk 1 2] [0, 1, 2, 3, 4] =
      .ok [[.num 0, .arr [.num 1, .num 2, .num 3, .num 4]]] ∧
    5 < 2 * (1 + 1 * 4) :=
  ⟨rfl, by decide⟩

/-- C8 counterexample.  The claim says every stream containing a scanline
with filter-type byte outside [0,4] fails with the unsupported-filter
error.  The stream below has filter byte 5 on its second scanline (byte
position 5 for width 1), but its first scanline has filter type 3
(Average), whose first-row handling throws a `TypeError` before the
invalid byte is ever reached — the call fails with a different error. -/
theorem c8_counterexample_earlier_crash :
    reverseFiltering [ihdrChunk 1 2] [3, 10, 20, 30, 40, 5, 1, 2, 3, 4] =
      .error .typeError ∧
    [3, 10, 20, 30, 40, 5, 1, 2, 3, 4].get? (1 * (1 + 1 * 4)) = some 5 ∧
    RFErr.typeError ≠ RFErr.unexpectedFilterByte :=
  ⟨rfl, rfl, by decide⟩

/-- C10 counterexample.  The claim says the reconstruction output is a
function of the filtered bytes and the image width alone, the width being
an explicit parameter.  The source reads the width from
`this.data[0].chunkInfo`: with the same buffer and the same image width
(both states hold an IHDR chunk recording width 1), a state whose first
chunk is not the IHDR makes the destructuring throw, while the IHDR-first
state succeeds. -/
theorem c10_counterexample_state_dependence :
    reverseFiltering [ihdrChunk 1 2] [0, 9, 9, 9, 9] =
      .ok [[.num 0, .arr [.num 9, .num 9, .num 9, .num 9]]] ∧
    reverseFiltering [plainChunk, ihdrChunk 1 2] [0, 9, 9, 9, 9] =
      .error .typeError ∧
    (Except.ok [[JsVal.num 0, .arr [.num 9, .num 9, .num 9, .num 9]]] :
        Except RFErr (List (List JsVal))) ≠ .error .typeError :=
  ⟨rfl, rfl, by simp⟩

/-- The default branch of the filter switch: every filter-type byte
outside [0,4] hits `throw new Error("Unexpected filter byte.")`. -/
theorem rfSwitch_bad (wB i : Nat) (st : RFSt) (cur : List JsVal)
    (h : 5 ≤ st.filterByte) :
    rfSwitch wB i st cur = .error .unexpectedFilterByte := by
  obtain ⟨k, hk⟩ : ∃ k, st.filterByte = k + 5 := ⟨st.filterByte - 5, by omega⟩
  unfold rfSwitch
  rw [hk]
  rfl

/-- C10 (amended).  The reconstruction output is a function of the
filtered bytes and of the width recorded in the first chunk's `chunkInfo`
(shared object state, not a parameter): whenever two states agree on that
width — including when both lack it — the two invocations return equal
results no matter how the rest of the state differs. -/
theorem c10_output_depends_only_on_width (d d' : List Chunk) (buf : List Nat)
    (h : (headChunkInfo d).map ChunkInfo.widthPixels =
         (headChunkInfo d').map ChunkInfo.widthPixels) :
    reverseFiltering d buf = reverseFiltering d' buf := by
  unfold reverseFiltering
  cases hd : headChunkInfo d <;> cases hd' : headChunkInfo d' <;>
    simp [hd, hd'] at h ⊢
  rw [h]

/-- Concrete instantiation of the C10 theorem: two states that agree on
the first chunk's width (but differ in the recorded height and in the
rest of the chunk list) reconstruct the same buffer identically. -/
theorem c10_output_depends_only_on_width_witness :
    (headChunkInfo [ihdrChunk 1 2]).map ChunkInfo.widthPixels =
      (headChunkInfo [ihdrChunk 1 99, plainChunk]).map ChunkInfo.widthPixels ∧
    reverseFiltering [ihdrChunk 1 2] [0, 1, 2, 3, 4] =
      reverseFiltering [ihdrChunk 1 99, plainChunk] [0, 1, 2, 3, 4] :=
  ⟨rfl, c10_output_depends_only_on_width _ _ _ rfl⟩

/-- C8 (amended).  Whenever the first scanline's filter-type byte is
outside [0,4], `reverseFiltering` throws "Unexpected filter byte." on the
first pixel of the first scanline, and no grid is returned. -/
theorem c8_first_scanline_bad_filter (data : List Chunk) (ci : ChunkInfo)
    (hci : headChunkInfo data = some ci) (buf : List Nat) (fb : Nat)
    (hfb : buf.get? 0 = some fb) (hbad : 5 ≤ fb) :
    reverseFiltering data buf = .error .unexpectedFilterByte := by
  unfold reverseFiltering
  rw [hci]
  cases buf with
  | nil => simp at hfb
  | cons b t =>
    have hb : b = fb := by simpa using hfb
    subst hb
    have hsw : ∀ (i : Nat) (st : RFSt) (cur : List JsVal), st.filterByte = b →
        rfSwitch (ci.widthPixels * 4 + 1) i st cur = .error .unexpectedFilterByte :=
      fun i st cur hfb2 => rfSwitch_bad _ _ _ _ (hfb2 ▸ hbad)
    simp [rfLoop, hsw]

/-- Concrete instantiation of the C8 theorem: a stream whose first
scanline has filter-type byte 6 is rejected with the source's error. -/
theorem c8_first_scanline_bad_filter_witness :
    headChunkInfo [ihdrChunk 1 2] = some ⟨1, 2⟩ ∧
    [6, 1, 2, 3, 4].get? 0 = some 6 ∧ 5 ≤ 6 ∧
    reverseFiltering [ihdrChunk 1 2] [6, 1, 2, 3, 4] =
      .error .unexpectedFilterByte :=
  ⟨rfl, rfl, by decide,
    c8_first_scanline_bad_filter [ihdrChunk 1 2] ⟨1, 2⟩ rfl [6, 1, 2, 3, 4] 6 rfl
      (by decide)⟩

theorem drop_at {α : Type} (l₁ l₂ : List α) (i : Nat) (h : l₁.length = i) :
    (l₁ ++ l₂).drop i = l₂ := by
  subst h; exact List.drop_left _ _

theorem jsSlice_at (l₁ l₂ : List Nat) (i : Nat) (h : l₁.length = i) :
    jsSlice (l₁ ++ l₂) i (i + 4) =
      (l₂.take 4).map (fun b => JsVal.num (b : Int)) := by
  unfold jsSlice
  rw [drop_at l₁ l₂ i h]
  simp

theorem set_concat {α : Type} (l : List α) (a b : α) (i : Nat) (h : l.length = i) :
    (l ++ [a]).set i b = l ++ [b] := by
  subst h
  induction l with
  | nil => rfl
  | cons x xs ih => simp [List.set, ih]

theorem len4_cons (s : List Nat) (r : Nat) (h : s.length = 4 * (r + 1)) :
    ∃ a b c d t, s = a :: b :: c :: d :: t ∧ t.length = 4 * r := by
  match s, h with
  | a :: b :: c :: d :: t, h =>
    exact ⟨a, b, c, d, t, rfl, by simpa [Nat.mul_succ] using h⟩

theorem chunk4_append (j : Nat) (s u : List Nat) (h : s.length = 4 * j) :
    chunk4 (s ++ u) = chunk4 s ++ chunk4 u := by
  induction j generalizing s with
  | zero =>
    have : s = [] := List.length_eq_zero.mp (by omega)
    subst this; simp [chunk4]
  | succ k ih =>
    obtain ⟨a, b, c, d, t, rfl, ht⟩ := len4_cons s k h
    rw [show (a :: b :: c :: d :: t) ++ u = a :: b :: c :: d :: (t ++ u) from rfl]
    rw [show chunk4 (a :: b :: c :: d :: (t ++ u)) = [a, b, c, d] :: chunk4 (t ++ u) from rfl]
    rw [show chunk4 (a :: b :: c :: d :: t) = [a, b, c, d] :: chunk4 t from rfl]
    rw [ih t ht]
    rfl

theorem pixRow_append4 (j : Nat) (s : List Nat) (b0 b1 b2 b3 : Nat)
    (h : s.length = 4 * j) :
    pixRow (s ++ [b0, b1, b2, b3]) =
      pixRow s ++ [.arr [.num b0, .num b1, .num b2, .num b3]] := by
  unfold pixRow
  rw [chunk4_append j s [b0, b1, b2, b3] h]
  simp [chunk4]

theorem rfLoop_step_f0 (buf : List Nat) (wB : Nat) (g i : Nat)
    (m j : Nat) (done : List (List JsVal)) (hdone : done.length = m)
    (rowp : List JsVal) (cur4 : List JsVal) (t : JsVal)
    (hns : ¬(i % wB = 0 ∨ i = 0))
    (hlen : i < buf.length)
    (hslice : jsSlice buf i (i + 4) = cur4) :
    rfLoop buf wB (g + 1) i
        ⟨done ++ [JsVal.num 0 :: rowp], t, 0, j, (m : Int)⟩ =
      rfLoop buf wB g (i + 4)
        ⟨done ++ [JsVal.num 0 :: (rowp ++ [.arr cur4])], t, 0, j + 1, (m : Int)⟩ := by
  have hgetE : (done ++ [JsVal.num 0 :: rowp])[m]? = some (JsVal.num 0 :: rowp) := by
    subst hdone
    exact List.getElem?_concat_length _ _
  have hrowAt : rowAt (done ++ [JsVal.num 0 :: rowp]) m = JsVal.num 0 :: rowp := by
    simp [rowAt, List.getD, hgetE]
  have hset : setRow (done ++ [JsVal.num 0 :: rowp]) m
      (JsVal.num 0 :: (rowp ++ [.arr cur4])) =
      done ++ [JsVal.num 0 :: (rowp ++ [.arr cur4])] := by
    unfold setRow
    rw [if_pos (by simp [hdone] : m < (done ++ [JsVal.num 0 :: rowp]).length)]
    exact set_concat _ _ _ _ hdone
  simp only [rfLoop]
  rw [if_pos hlen, if_neg hns]
  simp [Int.toNat_natCast, hgetE, hslice, rfSwitch, hrowAt, hset]

theorem rfLoop_run_f0 (w : Nat) (pre post : List Nat) (m : Nat)
    (done : List (List JsVal)) (hdone : done.length = m)
    (hpre : pre.length = m * (4 * w + 1)) :
    ∀ (r : Nat) (sdone srem : List Nat) (j g : Nat) (t : JsVal),
      sdone.length = 4 * j → srem.length = 4 * r → j + r = w → 1 ≤ j →
      rfLoop (pre ++ (0 :: (sdone ++ srem)) ++ post) (4 * w + 1) (g + r)
          (m * (4 * w + 1) + 1 + 4 * j)
          ⟨done ++ [JsVal.num 0 :: pixRow sdone], t, 0, j, (m : Int)⟩ =
        rfLoop (pre ++ (0 :: (sdone ++ srem)) ++ post) (4 * w + 1) g
          ((m + 1) * (4 * w + 1))
          ⟨done ++ [JsVal.num 0 :: pixRow (sdone ++ srem)], t, 0, w, (m : Int)⟩ := by
  intro r
  induction r with
  | zero =>
    intro sdone srem j g t hd hrem hjr hj
    obtain rfl : srem = [] := List.length_eq_zero.mp (by omega)
    rw [List.append_nil]
    have hjw : j = w := by omega
    rw [hjw, show m * (4 * w + 1) + 1 + 4 * w = (m + 1) * (4 * w + 1) from by ring]
    rfl
  | succ r ih =>
    intro sdone srem j g t hd hrem hjr hj
    obtain ⟨b0, b1, b2, b3, srem', rfl, hrem'⟩ := len4_cons srem r hrem
    have hbuf : pre ++ (0 :: (sdone ++ b0 :: b1 :: b2 :: b3 :: srem')) ++ post
        = (pre ++ 0 :: sdone) ++ (b0 :: b1 :: b2 :: b3 :: (srem' ++ post)) := by simp
    have hl1 : (pre ++ 0 :: sdone).length = m * (4 * w + 1) + 1 + 4 * j := by
      simp [hpre, hd]; omega
    have hlen : m * (4 * w + 1) + 1 + 4 * j <
        (pre ++ (0 :: (sdone ++ b0 :: b1 :: b2 :: b3 :: srem')) ++ post).length := by
      rw [hbuf, List.length_append, hl1]
      simp
    have hns : ¬((m * (4 * w + 1) + 1 + 4 * j) % (4 * w + 1) = 0 ∨
        m * (4 * w + 1) + 1 + 4 * j = 0) := by
      have h1 : (m * (4 * w + 1) + 1 + 4 * j) % (4 * w + 1) = 1 + 4 * j := by
        rw [show m * (4 * w + 1) + 1 + 4 * j = 1 + 4 * j + m * (4 * w + 1) from by ring,
          Nat.add_mul_mod_self_right]
        exact Nat.mod_eq_of_lt (by omega)
      rw [h1]
      omega
    have hslice : jsSlice (pre ++ (0 :: (sdone ++ b0 :: b1 :: b2 :: b3 :: srem')) ++ post)
        (m * (4 * w + 1) + 1 + 4 * j) (m * (4 * w + 1) + 1 + 4 * j + 4) =
        [.num b0, .num b1, .num b2, .num b3] := by
      rw [hbuf, jsSlice_at _ _ _ hl1]
      rfl
    have step := rfLoop_step_f0
      (pre ++ (0 :: (sdone ++ b0 :: b1 :: b2 :: b3 :: srem')) ++ post)
      (4 * w + 1) (g + r) (m * (4 * w + 1) + 1 + 4 * j) m j done hdone
      (pixRow sdone) [.num b0, .num b1, .num b2, .num b3] t hns hlen hslice
    show rfLoop _ _ ((g + r) + 1) _ _ = _
    rw [step]
    rw [show pixRow sdone ++ [JsVal.arr [.num b0, .num b1, .num b2, .num b3]]
        = pixRow (sdone ++ [b0, b1, b2, b3]) from
      (pixRow_append4 j sdone b0 b1 b2 b3 hd).symm]
    rw [show sdone ++ b0 :: b1 :: b2 :: b3 :: srem' = (sdone ++ [b0, b1, b2, b3]) ++ srem'
        from by simp]
    rw [show m * (4 * w + 1) + 1 + 4 * j + 4 = m * (4 * w + 1) + 1 + 4 * (j + 1) from by ring]
    exact ih (sdone ++ [b0, b1, b2, b3]) srem' (j + 1) g t
      (by simp [hd]; omega) hrem' (by omega) (by omega)

theorem rfLoop_start_f0 (buf : List Nat) (wB : Nat) (g i m : Nat)
    (done res0 : List (List JsVal)) (hdone : done.length = m)
    (hres : res0 = done ∨ (done = [] ∧ m = 0 ∧ res0 = [[]]))
    (t : JsVal) (fb pc : Nat) (cur4 : List JsVal)
    (hstart : i % wB = 0)
    (hlen : i < buf.length)
    (hfb : buf.getD i 0 = 0)
    (hslice : jsSlice buf (i + 1) (i + 1 + 4) = cur4) :
    rfLoop buf wB (g + 1) i ⟨res0, t, fb, pc, (m : Int) - 1⟩ =
      rfLoop buf wB g (i + 1 + 4)
        ⟨done ++ [[JsVal.num 0, .arr cur4]], .arr cur4, 0, 1, (m : Int)⟩ := by
  have hln : ((m : Int) - 1 + 1) = (m : Int) := by ring
  have hfbE : buf[i]?.getD 0 = 0 := by simpa [List.getD] using hfb
  have hgetE0 : done[m]? = none := by
    rw [List.getElem?_eq_none]
    omega
  have hset1 : setRow done m [JsVal.num 0] = done ++ [[JsVal.num 0]] := by
    unfold setRow
    rw [if_neg (by omega)]
  have hgetE1 : (done ++ [[JsVal.num 0]])[m]? = some [JsVal.num 0] := by
    subst hdone
    exact List.getElem?_concat_length _ _
  have hrowAt1 : rowAt (done ++ [[JsVal.num 0]]) m = [JsVal.num 0] := by
    simp [rowAt, List.getD, hgetE1]
  have hset2 : setRow (done ++ [[JsVal.num 0]]) m [JsVal.num 0, .arr cur4] =
      done ++ [[JsVal.num 0, .arr cur4]] := by
    unfold setRow
    rw [if_pos (by simp [hdone] : m < (done ++ [[JsVal.num 0]]).length)]
    exact set_concat _ _ _ _ hdone
  simp only [rfLoop]
  rw [if_pos hlen, if_pos (Or.inl hstart)]
  rcases hres with rfl | ⟨hde, hm0, hr0⟩
  · simp [hfbE, hln, Int.toNat_natCast, hgetE0, hset1, hslice, rfSwitch, hrowAt1, hset2]
  · subst hde hm0 hr0
    have hset0 : setRow [[]] 0 [JsVal.num 0] = [[JsVal.num 0]] := rfl
    have hrowAt0 : rowAt [[JsVal.num 0]] 0 = [JsVal.num 0] := rfl
    have hset2b : setRow [[JsVal.num 0]] 0 [JsVal.num 0, .arr cur4] =
        [[JsVal.num 0, .arr cur4]] := rfl
    simp [hfbE, hln, Int.toNat_natCast, hslice, rfSwitch, hset0, hrowAt0, hset2b]

theorem getD_at {α : Type} (l₁ l₂ : List α) (a d : α) (i : Nat) (h : l₁.length = i) :
    (l₁ ++ a :: l₂).getD i d = a := by
  subst h
  simp [List.getD, List.getElem?_append_right (Nat.le_refl _)]

theorem flat0_cons (s : List Nat) (rest : List (List Nat)) :
    flat0 (s :: rest) = (0 :: s) ++ flat0 rest := by
  simp [flat0, scanline0]

theorem rfLoop_lines_f0 (w : Nat) (hw : 0 < w) :
    ∀ (lines : List (List Nat)) (pre : List Nat) (m : Nat)
      (done res0 : List (List JsVal)) (t : JsVal) (fb pc g : Nat),
      (∀ s ∈ lines, s.length = 4 * w) →
      pre.length = m * (4 * w + 1) →
      done.length = m →
      (res0 = done ∨ (done = [] ∧ m = 0 ∧ res0 = [[]] ∧ lines ≠ [])) →
      rfLoop (pre ++ flat0 lines) (4 * w + 1) (g + w * lines.length + 1)
          (m * (4 * w + 1)) ⟨res0, t, fb, pc, (m : Int) - 1⟩ =
        .ok (done ++ lines.map (fun s => JsVal.num 0 :: pixRow s)) := by
  obtain ⟨r, rfl⟩ : ∃ r, w = r + 1 := ⟨w - 1, by omega⟩
  intro lines
  induction lines with
  | nil =>
    intro pre m done res0 t fb pc g hall hpre hdone hres
    rcases hres with rfl | ⟨_, _, _, hne⟩
    · show rfLoop (pre ++ flat0 []) _ (g + (r + 1) * 0 + 1) _ _ = _
      simp only [rfLoop]
      rw [if_neg (by simp [flat0, hpre] : ¬ m * (4 * (r + 1) + 1) < (pre ++ flat0 []).length)]
      simp
    · exact absurd rfl hne
  | cons s rest ih =>
    intro pre m done res0 t fb pc g hall hpre hdone hres
    have hs : s.length = 4 * (r + 1) := hall s (by simp)
    obtain ⟨b0, b1, b2, b3, s', rfl, hs'⟩ := len4_cons s r hs
    rw [flat0_cons, ← List.append_assoc]
    have hl1 : (pre ++ [0]).length = m * (4 * (r + 1) + 1) + 1 := by simp [hpre]
    have hstart : (m * (4 * (r + 1) + 1)) % (4 * (r + 1) + 1) = 0 := Nat.mul_mod_left _ _
    have hlen : m * (4 * (r + 1) + 1) <
        (pre ++ (0 :: (b0 :: b1 :: b2 :: b3 :: s')) ++ flat0 rest).length := by
      simp [hpre]
    have hfb : (pre ++ (0 :: (b0 :: b1 :: b2 :: b3 :: s')) ++ flat0 rest).getD
        (m * (4 * (r + 1) + 1)) 0 = 0 := by
      rw [show pre ++ (0 :: (b0 :: b1 :: b2 :: b3 :: s')) ++ flat0 rest
          = pre ++ 0 :: (b0 :: b1 :: b2 :: b3 :: (s' ++ flat0 rest)) from by simp]
      exact getD_at _ _ _ _ _ hpre
    have hslice : jsSlice (pre ++ (0 :: (b0 :: b1 :: b2 :: b3 :: s')) ++ flat0 rest)
        (m * (4 * (r + 1) + 1) + 1) (m * (4 * (r + 1) + 1) + 1 + 4) =
        [.num b0, .num b1, .num b2, .num b3] := by
      rw [show pre ++ (0 :: (b0 :: b1 :: b2 :: b3 :: s')) ++ flat0 rest
          = (pre ++ [0]) ++ (b0 :: b1 :: b2 :: b3 :: (s' ++ flat0 rest)) from by simp]
      rw [jsSlice_at _ _ _ hl1]
      rfl
    have hres2 : res0 = done ∨ (done = [] ∧ m = 0 ∧ res0 = [[]]) := by tauto
    have start := rfLoop_start_f0
      (pre ++ (0 :: (b0 :: b1 :: b2 :: b3 :: s')) ++ flat0 rest)
      (4 * (r + 1) + 1) ((g + (r + 1) * rest.length + 1) + r) (m * (4 * (r + 1) + 1)) m
      done res0 hdone hres2 t fb pc [.num b0, .num b1, .num b2, .num b3]
      hstart hlen hfb hslice
    simp only [List.length_cons]
    rw [show g + (r + 1) * (rest.length + 1) + 1
        = (((g + (r + 1) * rest.length + 1) + r) + 1) from by ring]
    rw [start]
    have run := rfLoop_run_f0 (r + 1) pre (flat0 rest) m done hdone hpre r
      [b0, b1, b2, b3] s' 1 (g + (r + 1) * rest.length + 1)
      (.arr [.num b0, .num b1, .num b2, .num b3])
      (by simp) hs' (by omega) (by omega)
    rw [show m * (4 * (r + 1) + 1) + 1 + 4 = m * (4 * (r + 1) + 1) + 1 + 4 * 1 from by ring]
    rw [show (pre ++ (0 :: (b0 :: b1 :: b2 :: b3 :: s')) ++ flat0 rest)
        = pre ++ (0 :: ([b0, b1, b2, b3] ++ s')) ++ flat0 rest from by simp]
    rw [show ([[JsVal.num 0, JsVal.arr [.num b0, .num b1, .num b2, .num b3]]] : List (List JsVal))
        = [JsVal.num 0 :: pixRow [b0, b1, b2, b3]] from rfl]
    rw [run]
    have ihx := ih (pre ++ (0 :: ([b0, b1, b2, b3] ++ s'))) (m + 1)
      (done ++ [JsVal.num 0 :: pixRow ([b0, b1, b2, b3] ++ s')])
      (done ++ [JsVal.num 0 :: pixRow ([b0, b1, b2, b3] ++ s')])
      (.arr [.num b0, .num b1, .num b2, .num b3]) 0 (r + 1) g
      (fun x hx => hall x (by simp [hx]))
      (by simp [hpre, hs']; ring)
      (by simp [hdone])
      (Or.inl rfl)
    rw [show ((m : Int)) = ((m + 1 : Nat) : Int) - 1 from by push_cast; ring]
    rw [ihx]
    simp

theorem flat0_length (w : Nat) (lines : List (List Nat))
    (hall : ∀ s ∈ lines, s.length = 4 * w) :
    (flat0 lines).length = lines.length * (4 * w + 1) := by
  induction lines with
  | nil => simp [flat0]
  | cons s rest ih =>
    rw [flat0_cons]
    simp only [List.length_append, List.length_cons, List.length_cons]
    rw [hall s (by simp), ih (fun x hx => hall x (by simp [hx]))]
    ring

theorem reverseFiltering_eq (data : List Chunk) (ci : ChunkInfo)
    (hci : headChunkInfo data = some ci) (buf : List Nat) :
    reverseFiltering data buf =
      rfLoop buf (ci.widthPixels * 4 + 1) (buf.length + 1) 0
        ⟨[[]], .undefined, 0, 0, -1⟩ := by
  unfold reverseFiltering
  rw [hci]

theorem rf_filter0 (data : List Chunk) (ci : ChunkInfo)
    (hci : headChunkInfo data = some ci) (w : Nat) (hw : ci.widthPixels = w)
    (hw0 : 0 < w) (lines : List (List Nat)) (hne : lines ≠ [])
    (hall : ∀ s ∈ lines, s.length = 4 * w) :
    reverseFiltering data (flat0 lines) =
      .ok (lines.map (fun s => JsVal.num 0 :: pixRow s)) := by
  rw [reverseFiltering_eq data ci hci, hw]
  rw [show w * 4 + 1 = 4 * w + 1 from by ring]
  rw [show (flat0 lines).length + 1
      = lines.length * (3 * w + 1) + w * lines.length + 1 from by
    rw [flat0_length w lines hall]; ring]
  have hlem := rfLoop_lines_f0 w hw0 lines [] 0 [] [[]] .undefined 0 0
    (lines.length * (3 * w + 1)) hall (by simp) rfl (Or.inr ⟨rfl, rfl, rfl, hne⟩)
  rw [show (0 : Nat) * (4 * w + 1) = 0 from by ring] at hlem
  exact hlem

theorem chunk4_length (j : Nat) (s : List Nat) (h : s.length = 4 * j) :
    (chunk4 s).length = j := by
  induction j generalizing s with
  | zero =>
    have : s = [] := List.length_eq_zero.mp (by omega)
    subst this
    rfl
  | succ k ih =>
    obtain ⟨a, b, c, d, t, rfl, ht⟩ := len4_cons s k h
    rw [show chunk4 (a :: b :: c :: d :: t) = [a, b, c, d] :: chunk4 t from rfl]
    simp [ih t ht]

theorem c6_rows_keep_filter_byte (data : List Chunk) (ci : ChunkInfo)
    (hci : headChunkInfo data = some ci) (w : Nat) (hw : ci.widthPixels = w)
    (hw0 : 0 < w) (lines : List (List Nat)) (hne : lines ≠ [])
    (hall : ∀ s ∈ lines, s.length = 4 * w) :
    reverseFiltering data (flat0 lines) =
      .ok (lines.map (fun s => JsVal.num 0 :: pixRow s)) ∧
    (lines.map (fun s => JsVal.num 0 :: pixRow s)).length = lines.length ∧
    ∀ row ∈ lines.map (fun s => JsVal.num 0 :: pixRow s), row.length = w + 1 := by
  refine ⟨rf_filter0 data ci hci w hw hw0 lines hne hall, by simp, ?_⟩
  intro row hrow
  simp only [List.mem_map] at hrow
  obtain ⟨s, hs, rfl⟩ := hrow
  simp [pixRow, chunk4_length w s (hall s hs)]

theorem c6_rows_keep_filter_byte_witness :
    reverseFiltering [ihdrChunk 1 3]
        (flat0 [[10, 20, 30, 40], [50, 60, 70, 80], [90, 91, 92, 93]]) =
      .ok ([[10, 20, 30, 40], [50, 60, 70, 80], [90, 91, 92, 93]].map
        (fun s => JsVal.num 0 :: pixRow s)) ∧
    ([[10, 20, 30, 40], [50, 60, 70, 80], [90, 91, 92, 93]].map
        (fun s => JsVal.num 0 :: pixRow s)).length = 3 ∧
    ∀ row ∈ [[10, 20, 30, 40], [50, 60, 70, 80], [90, 91, 92, 93]].map
        (fun s => JsVal.num 0 :: pixRow s), row.length = 1 + 1 :=
  c6_rows_keep_filter_byte [ihdrChunk 1 3] ⟨1, 3⟩ rfl 1 rfl (by decide)
    [[10, 20, 30, 40], [50, 60, 70, 80], [90, 91, 92, 93]] (by decide) (by decide)

theorem c7_truncation_unchecked (data : List Chunk) (w h : Nat)
    (hci : headChunkInfo data = some ⟨w, h⟩) (hw0 : 0 < w)
    (lines : List (List Nat)) (hne : lines ≠ [])
    (hall : ∀ s ∈ lines, s.length = 4 * w)
    (hshort : lines.length < h) :
    (flat0 lines).length < h * (1 + w * 4) ∧
    reverseFiltering data (flat0 lines) =
      .ok (lines.map (fun s => JsVal.num 0 :: pixRow s)) ∧
    (lines.map (fun s => JsVal.num 0 :: pixRow s)).length = lines.length := by
  refine ⟨?_, rf_filter0 data ⟨w, h⟩ hci w rfl hw0 lines hne hall, by simp⟩
  rw [flat0_length w lines hall, show 4 * w + 1 = 1 + w * 4 from by ring]
  have hpos : 0 < 1 + w * 4 := by omega
  exact Nat.mul_lt_mul_of_lt_of_le hshort (Nat.le_refl _) hpos

theorem c7_truncation_unchecked_witness :
    (flat0 [[1, 2, 3, 4]]).length < 2 * (1 + 1 * 4) ∧
    reverseFiltering [ihdrChunk 1 2] (flat0 [[1, 2, 3, 4]]) =
      .ok ([[1, 2, 3, 4]].map (fun s => JsVal.num 0 :: pixRow s)) ∧
    ([[1, 2, 3, 4]].map (fun s => JsVal.num 0 :: pixRow s)).length = 1 :=
  c7_truncation_unchecked [ihdrChunk 1 2] 1 2 rfl (by decide) [[1, 2, 3, 4]]
    (by decide) (by decide) (by decide)

theorem parseLoop_end (bytes : List Nat) (g pos : Nat) (h : ¬ pos < bytes.length) :
    parseLoop bytes (g + 1) pos = .ok [] := by
  simp only [parseLoop]
  rw [if_neg h]

theorem parseLoop_step (bytes : List Nat) (g pos size crc : Nat)
    (ci : Option ChunkInfo) (rest : List Chunk)
    (hpos : pos < bytes.length)
    (hsize : getUint32 bytes pos = some size)
    (hcrc : getUint32 bytes (pos + 8 + size) = some crc)
    (hinfo : (if (bytes.drop (pos + 4)).take 4 = ihdrCode then
        (match getUint32 bytes 16, getUint32 bytes 20 with
         | some w, some h => Except.ok (some (⟨w, h⟩ : ChunkInfo))
         | _, _ => Except.error ParseErr.rangeError)
      else Except.ok none) = Except.ok ci)
    (hrest : parseLoop bytes g (pos + 8 + size + 4) = .ok rest) :
    parseLoop bytes (g + 1) pos = .ok
      ({ fourCC := (bytes.drop (pos + 4)).take 4, size := size,
         data := (bytes.drop (pos + 8)).take size, offset := pos + 8,
         crc := crc, chunkInfo := ci } :: rest) := by
  simp only [parseLoop]
  rw [if_pos hpos, hsize]
  simp only [hcrc, hinfo, hrest]

theorem get?_add {α : Type} (l₁ l₂ : List α) (k : Nat) :
    (l₁ ++ l₂).get? (l₁.length + k) = l₂.get? k := by
  simp [List.get?_eq_getElem?, List.getElem?_append_right (Nat.le_add_right _ _)]

theorem getUint32_at (l₁ l₂ : List Nat) (pos : Nat) (h : l₁.length = pos) :
    getUint32 (l₁ ++ l₂) pos = getUint32 l₂ 0 := by
  subst h
  have h0 := get?_add l₁ l₂ 0
  have h1 := get?_add l₁ l₂ 1
  have h2 := get?_add l₁ l₂ 2
  have h3 := get?_add l₁ l₂ 3
  rw [Nat.add_zero] at h0
  unfold getUint32
  rw [h0, h1, h2, h3]

theorem getUint32_be32 (n : Nat) (hn : n < 4294967296) (rest : List Nat) :
    getUint32 (be32 n ++ rest) 0 = some n := by
  simp [getUint32, be32]
  omega

theorem getUint32_some (bytes : List Nat) (pos : Nat) (h : pos + 3 < bytes.length) :
    ∃ v, getUint32 bytes pos = some v := by
  unfold getUint32
  rw [List.get?_eq_get (by omega), List.get?_eq_get (by omega),
    List.get?_eq_get (by omega), List.get?_eq_get (by omega)]
  exact ⟨_, rfl⟩

theorem take4_at (l₁ cc l₂ : List Nat) (pos : Nat) (h : l₁.length = pos)
    (hcc : cc.length = 4) :
    ((l₁ ++ (cc ++ l₂)).drop pos).take 4 = cc := by
  subst h
  rw [List.drop_left, ← hcc, List.take_left]

theorem c9_parse_three_chunks (sig P D c1 c2 c3 : List Nat) (B : List Nat)
    (hB : B = sig ++ be32 13 ++ ihdrCode ++ P ++ c1 ++
      be32 D.length ++ idatCode ++ D ++ c2 ++ be32 0 ++ iendCode ++ c3)
    (hsig : sig.length = 8) (hP : P.length = 13)
    (hc1 : c1.length = 4) (hc2 : c2.length = 4) (hc3 : c3.length = 4)
    (hN : D.length < 4294967296) :
    ∃ (k1 k2 k3 : Chunk) (w h : Nat),
      parseChunks B = .ok [k1, k2, k3] ∧
      k1.fourCC = ihdrCode ∧ k2.fourCC = idatCode ∧ k3.fourCC = iendCode ∧
      getUint32 B 16 = some w ∧ getUint32 B 20 = some h ∧
      k1.chunkInfo = some ⟨w, h⟩ := by
  have hlen : B.length = 57 + D.length := by
    rw [hB]; simp [hsig, hP, hc1, hc2, hc3, be32, ihdrCode, idatCode, iendCode]; omega
  have hsize1 : getUint32 B 8 = some 13 := by
    rw [hB, show sig ++ be32 13 ++ ihdrCode ++ P ++ c1 ++ be32 D.length ++ idatCode ++
        D ++ c2 ++ be32 0 ++ iendCode ++ c3
      = sig ++ (be32 13 ++ (ihdrCode ++ P ++ c1 ++ be32 D.length ++ idatCode ++
        D ++ c2 ++ be32 0 ++ iendCode ++ c3)) from by simp]
    rw [getUint32_at _ _ 8 hsig]
    exact getUint32_be32 13 (by omega) _
  have hcc1 : (B.drop (8 + 4)).take 4 = ihdrCode := by
    rw [hB, show sig ++ be32 13 ++ ihdrCode ++ P ++ c1 ++ be32 D.length ++ idatCode ++
        D ++ c2 ++ be32 0 ++ iendCode ++ c3
      = (sig ++ be32 13) ++ (ihdrCode ++ (P ++ c1 ++ be32 D.length ++ idatCode ++
        D ++ c2 ++ be32 0 ++ iendCode ++ c3)) from by simp]
    exact take4_at _ _ _ _ (by simp [hsig, be32]) (by rfl)
  obtain ⟨v1, hcrc1⟩ : ∃ v, getUint32 B (8 + 8 + 13) = some v :=
    getUint32_some B _ (by rw [hlen]; omega)
  obtain ⟨w, hw16⟩ : ∃ v, getUint32 B 16 = some v :=
    getUint32_some B _ (by rw [hlen]; omega)
  obtain ⟨h, hh20⟩ : ∃ v, getUint32 B 20 = some v :=
    getUint32_some B _ (by rw [hlen]; omega)
  have hinfo1 : (if (B.drop (8 + 4)).take 4 = ihdrCode then
      (match getUint32 B 16, getUint32 B 20 with
       | some w, some h => Except.ok (some (⟨w, h⟩ : ChunkInfo))
       | _, _ => Except.error ParseErr.rangeError)
    else Except.ok none) = Except.ok (some ⟨w, h⟩) := by
    rw [hcc1, if_pos rfl, hw16, hh20]
  have hsize2 : getUint32 B (8 + 8 + 13 + 4) = some D.length := by
    rw [hB, show sig ++ be32 13 ++ ihdrCode ++ P ++ c1 ++ be32 D.length ++ idatCode ++
        D ++ c2 ++ be32 0 ++ iendCode ++ c3
      = (sig ++ be32 13 ++ ihdrCode ++ P ++ c1) ++ (be32 D.length ++ (idatCode ++
        D ++ c2 ++ be32 0 ++ iendCode ++ c3)) from by simp]
    rw [getUint32_at _ _ _ (by simp [hsig, hP, hc1, be32, ihdrCode])]
    exact getUint32_be32 D.length hN _
  have hcc2 : (B.drop (8 + 8 + 13 + 4 + 4)).take 4 = idatCode := by
    rw [hB, show sig ++ be32 13 ++ ihdrCode ++ P ++ c1 ++ be32 D.length ++ idatCode ++
        D ++ c2 ++ be32 0 ++ iendCode ++ c3
      = (sig ++ be32 13 ++ ihdrCode ++ P ++ c1 ++ be32 D.length) ++ (idatCode ++
        (D ++ c2 ++ be32 0 ++ iendCode ++ c3)) from by simp]
    exact take4_at _ _ _ _ (by simp [hsig, hP, hc1, be32, ihdrCode]) (by rfl)
  obtain ⟨v2, hcrc2⟩ : ∃ v, getUint32 B (8 + 8 + 13 + 4 + 8 + D.length) = some v :=
    getUint32_some B _ (by rw [hlen]; omega)
  have hinfo2 : (if (B.drop (8 + 8 + 13 + 4 + 4)).take 4 = ihdrCode then
      (match getUint32 B 16, getUint32 B 20 with
       | some w, some h => Except.ok (some (⟨w, h⟩ : ChunkInfo))
       | _, _ => Except.error ParseErr.rangeError)
    else Except.ok none) = Except.ok none := by
    rw [hcc2]
    exact if_neg (by decide)
  have hsize3 : getUint32 B (8 + 8 + 13 + 4 + 8 + D.length + 4) = some 0 := by
    rw [hB, show sig ++ be32 13 ++ ihdrCode ++ P ++ c1 ++ be32 D.length ++ idatCode ++
        D ++ c2 ++ be32 0 ++ iendCode ++ c3
      = (sig ++ be32 13 ++ ihdrCode ++ P ++ c1 ++ be32 D.length ++ idatCode ++ D ++ c2)
        ++ (be32 0 ++ (iendCode ++ c3)) from by simp]
    rw [getUint32_at _ _ _ (by simp [hsig, hP, hc1, hc2, be32, ihdrCode, idatCode]; omega)]
    exact getUint32_be32 0 (by omega) _
  have hcc3 : (B.drop (8 + 8 + 13 + 4 + 8 + D.length + 4 + 4)).take 4 = iendCode := by
    rw [hB, show sig ++ be32 13 ++ ihdrCode ++ P ++ c1 ++ be32 D.length ++ idatCode ++
        D ++ c2 ++ be32 0 ++ iendCode ++ c3
      = (sig ++ be32 13 ++ ihdrCode ++ P ++ c1 ++ be32 D.length ++ idatCode ++ D ++ c2
        ++ be32 0) ++ (iendCode ++ c3) from by simp]
    exact take4_at _ _ _ _ (by simp [hsig, hP, hc1, hc2, be32, ihdrCode, idatCode]; omega) (by rfl)
  obtain ⟨v3, hcrc3⟩ :
      ∃ v, getUint32 B (8 + 8 + 13 + 4 + 8 + D.length + 4 + 8 + 0) = some v :=
    getUint32_some B _ (by rw [hlen]; omega)
  have hinfo3 : (if (B.drop (8 + 8 + 13 + 4 + 8 + D.length + 4 + 4)).take 4 = ihdrCode then
      (match getUint32 B 16, getUint32 B 20 with
       | some w, some h => Except.ok (some (⟨w, h⟩ : ChunkInfo))
       | _, _ => Except.error ParseErr.rangeError)
    else Except.ok none) = Except.ok none := by
    rw [hcc3]
    exact if_neg (by decide)
  have hendL : parseLoop B (55 + D.length)
      (8 + 8 + 13 + 4 + 8 + D.length + 4 + 8 + 0 + 4) = .ok [] := by
    rw [show 55 + D.length = 54 + D.length + 1 from by omega]
    exact parseLoop_end _ _ _ (by rw [hlen]; omega)
  have h3 := parseLoop_step B (55 + D.length) (8 + 8 + 13 + 4 + 8 + D.length + 4)
    0 v3 none [] (by rw [hlen]; omega) hsize3 hcrc3 hinfo3 hendL
  rw [show 55 + D.length + 1 = 56 + D.length from by omega] at h3
  have h2 := parseLoop_step B (56 + D.length) (8 + 8 + 13 + 4) D.length v2 none _
    (by rw [hlen]; omega) hsize2 hcrc2 hinfo2 h3
  rw [show 56 + D.length + 1 = 57 + D.length from by omega] at h2
  have h1 := parseLoop_step B (57 + D.length) 8 13 v1 (some ⟨w, h⟩) _
    (by rw [hlen]; omega) hsize1 hcrc1 hinfo1 h2
  refine ⟨{ fourCC := (B.drop (8 + 4)).take 4, size := 13,
            data := (B.drop (8 + 8)).take 13, offset := 8 + 8, crc := v1,
            chunkInfo := some ⟨w, h⟩ },
          { fourCC := (B.drop (8 + 8 + 13 + 4 + 4)).take 4, size := D.length,
            data := (B.drop (8 + 8 + 13 + 4 + 8)).take D.length,
            offset := 8 + 8 + 13 + 4 + 8, crc := v2, chunkInfo := none },
          { fourCC := (B.drop (8 + 8 + 13 + 4 + 8 + D.length + 4 + 4)).take 4,
            size := 0,
            data := (B.drop (8 + 8 + 13 + 4 + 8 + D.length + 4 + 8)).take 0,
            offset := 8 + 8 + 13 + 4 + 8 + D.length + 4 + 8, crc := v3,
            chunkInfo := none },
          w, h, ?_, hcc1, hcc2, hcc3, hw16, hh20, rfl⟩
  unfold parseChunks
  rw [hlen]
  exact h1

theorem c9_parse_three_chunks_witness :
    ∃ (k1 k2 k3 : Chunk) (w h : Nat),
      parseChunks ([137, 80, 78, 71, 13, 10, 26, 10] ++ be32 13 ++ ihdrCode ++
          [0, 0, 0, 2, 0, 0, 0, 3, 8, 6, 0, 0, 0] ++ [9, 9, 9, 9] ++
          be32 ([1, 2, 3] : List Nat).length ++ idatCode ++ [1, 2, 3] ++
          [8, 8, 8, 8] ++ be32 0 ++ iendCode ++ [7, 7, 7, 7]) =
        .ok [k1, k2, k3] ∧
      k1.fourCC = ihdrCode ∧ k2.fourCC = idatCode ∧ k3.fourCC = iendCode ∧
      getUint32 ([137, 80, 78, 71, 13, 10, 26, 10] ++ be32 13 ++ ihdrCode ++
          [0, 0, 0, 2, 0, 0, 0, 3, 8, 6, 0, 0, 0] ++ [9, 9, 9, 9] ++
          be32 ([1, 2, 3] : List Nat).length ++ idatCode ++ [1, 2, 3] ++
          [8, 8, 8, 8] ++ be32 0 ++ iendCode ++ [7, 7, 7, 7]) 16 = some w ∧
      getUint32 ([137, 80, 78, 71, 13, 10, 26, 10] ++ be32 13 ++ ihdrCode ++
          [0, 0, 0, 2, 0, 0, 0, 3, 8, 6, 0, 0, 0] ++ [9, 9, 9, 9] ++
          be32 ([1, 2, 3] : List Nat).length ++ idatCode ++ [1, 2, 3] ++
          [8, 8, 8, 8] ++ be32 0 ++ iendCode ++ [7, 7, 7, 7]) 20 = some h ∧
      k1.chunkInfo = some ⟨w, h⟩ :=
  c9_parse_three_chunks [137, 80, 78, 71, 13, 10, 26, 10]
    [0, 0, 0, 2, 0, 0, 0, 3, 8, 6, 0, 0, 0] [1, 2, 3] [9, 9, 9, 9] [8, 8, 8, 8]
    [7, 7, 7, 7] _ rfl rfl rfl rfl rfl rfl (by decide)
